import Mathlib

/-!
Verification of the AG-UI spike: a shallow embedding of the client-side
SSE event reducer (`frontend/src/hooks/useAGUI.ts`), the client frame
reassembler (the read loop in `sendMessage`), and the server-side keyword
router (`adapters/mastra/server.ts`), together with theorems checking the
natural-language specification against this embedding.

Conventions of the embedding:
* JS strings are Lean `String`s; where a JS string operation has no
  kernel-reducible Lean counterpart, it is re-implemented over `List Char`
  (`jsStartsWith`, `hasInfix`, `jsToLower`, `jsIsBlank`, `jsTrimList`).
* `JSON.parse` is a host primitive; it is modelled by an abstract
  parameter `p : String → Option J` over an arbitrary JSON-value type `J`
  (`some` = successful parse, `none` = parse throws).
* React `setState` updates are modelled as synchronous state
  transformations; the dispatcher's `try/catch` is modelled with
  `Except Unit`, the catch replacing the state by the pre-frame state.
* Clock reads (`performance.now()`, `new Date()`) are modelled by an
  explicit `now : ℚ` argument.
-/

namespace AGUI

/-- JS `x || dflt` for a string-or-undefined value: `undefined` and the
empty string are falsy and select the default. -/
def jsOrStr (o : Option String) (dflt : String) : String :=
  match o with
  | some v => if v = "" then dflt else v
  | none => dflt

/-- JS `s.startsWith(pat)`, via the character list. -/
def jsStartsWith (s pat : String) : Bool :=
  pat.toList.isPrefixOf s.toList

/-- JS `s.includes(pat)` on character lists: `pat` occurs contiguously in `l`. -/
def hasInfix (l pat : List Char) : Bool :=
  pat.isPrefixOf l ||
    match l with
    | [] => false
    | _ :: t => hasInfix t pat

/-- JS `s.includes(pat)` on strings. -/
def strContains (s pat : String) : Bool :=
  hasInfix s.toList pat.toList

/-- JS `s.toLowerCase()` (ASCII-faithful). -/
def jsToLower (s : String) : String :=
  ⟨s.toList.map Char.toLower⟩

/-- JS `s.trim()` on a character list: strip whitespace from both ends. -/
def jsTrimList (l : List Char) : List Char :=
  ((l.dropWhile Char.isWhitespace).reverse.dropWhile Char.isWhitespace).reverse

/-- JS falsiness of `s.trim()`: the string is all whitespace. -/
def jsIsBlank (s : String) : Bool :=
  s.toList.all Char.isWhitespace

/-- Message roles (`useAGUI.ts:11`). -/
inductive Role where
  | user
  | assistant
  | system
deriving DecidableEq

/-- Tool-call status (`useAGUI.ts:26`). -/
inductive ToolStatus where
  | pending
  | running
  | complete
  | error
deriving DecidableEq

/-- An attached structured component `{type, data}` (`useAGUI.ts:15-18`),
with the JSON payload type abstract. -/
structure MessageComponent (J : Type) where
  type : String
  data : J
deriving DecidableEq

/-- A conversation entry (`AGUIMessage`, `useAGUI.ts:9-19`). -/
structure AGUIMessage (J : Type) where
  id : String
  role : Role
  content : String
  timestamp : ℚ
  isComplete : Bool
  component : Option (MessageComponent J)
deriving DecidableEq

/-- The tracked tool invocation (`ToolCall`, `useAGUI.ts:21-27`). -/
structure ToolCall (J : Type) where
  id : String
  name : String
  args : Option J
  result : Option String
  status : ToolStatus
deriving DecidableEq

/-- Run metrics (`AGUIMetrics`, `useAGUI.ts:29-34`). -/
structure AGUIMetrics where
  ttft : Option ℚ
  totalTokens : Nat
  totalTime : Option ℚ
  throughput : Option ℚ
deriving DecidableEq

/-- The hook's visible state plus its refs (`useAGUI.ts:69-84`):
`messages/isConnected/isStreaming/activeTool/error/metrics` are React
state; `startTime/firstTokenTime/tokenCount` model `startTimeRef`,
`firstTokenTimeRef`, `tokenCountRef`; `toolClearTimer` models the pending
`setTimeout(() => setActiveTool(null), 1000)` delay; `abortCtrl` models
`abortControllerRef` (identified by a number, `none` = no controller). -/
structure ClientState (J : Type) where
  messages : List (AGUIMessage J)
  isConnected : Bool
  isStreaming : Bool
  activeTool : Option (ToolCall J)
  error : Option String
  metrics : AGUIMetrics
  startTime : Option ℚ
  firstTokenTime : Option ℚ
  tokenCount : Nat
  toolClearTimer : Option Nat
  abortCtrl : Option Nat
deriving DecidableEq

/-- Decoded AG-UI events, the `data.type` switch discriminators of
`processSSELine` (`useAGUI.ts:137-311`). Fields that JS may leave
`undefined` are `Option`s; already-decoded JSON values have type `J`. -/
inductive Event (J : Type) where
  | runStarted
  | runFinished
  | runError (message : Option String)
  | textMessageStart (messageId : Option String)
  | textMessageContent (delta : Option String)
  | textMessageEnd
  | toolCallStart (toolCallId toolName : String) (args : Option J)
  | toolCallArgs (delta : Option String)
  | toolCallEnd (result : Option String)
  | stateUpdate (state : Option J)
  | uiAction (action : Option String) (args : Option J)
  | done
  | unknown (type : String)
deriving DecidableEq

/-- The literal sentinel `'COMPONENT:'` (`useAGUI.ts:184`). -/
def componentMarker : String := "COMPONENT:"

/-- First-colon split: `some (before, after)` when `l = before ++ ':' :: after`
with no colon in `before`, else `none`. This embeds
`afterPrefix.indexOf(':')` followed by the two `substring` calls
(`useAGUI.ts:188-190`). -/
def splitFirstColon : List Char → Option (List Char × List Char)
  | [] => none
  | x :: xs =>
    if x = ':' then some ([], xs)
    else
      match splitFirstColon xs with
      | some q => some (x :: q.1, q.2)
      | none => none

/-- The component split of a sealed message's content (`useAGUI.ts:187-190`):
drop the `'COMPONENT:'` marker, then split at the first colon into
`(componentType, jsonStr)`. When there is no colon, JS `indexOf` returns
`-1`, `substring(0, -1)` yields `""` and `substring(0)` yields the whole
remainder, which the `none` branch reproduces. -/
def componentSplit (content : String) : String × String :=
  match splitFirstColon (content.toList.drop componentMarker.toList.length) with
  | some q => (⟨q.1⟩, ⟨q.2⟩)
  | none => ("", ⟨content.toList.drop componentMarker.toList.length⟩)

/-- Sealing of a message on `TEXT_MESSAGE_END` (`useAGUI.ts:181-214`):
if the content carries the `'COMPONENT:'` marker, try to parse the payload
(`p` models `JSON.parse`); on success clear the displayed content and
attach the component; on failure (the `catch`) or without the marker,
just set `isComplete`. -/
def sealMessage {J : Type} (p : String → Option J) (m : AGUIMessage J) : AGUIMessage J :=
  if jsStartsWith m.content componentMarker then
    let q := componentSplit m.content
    match p q.2 with
    | some d =>
      { m with content := "", isComplete := true,
               component := some { type := q.1, data := d } }
    | none => { m with isComplete := true }
  else { m with isComplete := true }

/-- Apply `f` to the message at the last index when its role is assistant
(`lastIdx >= 0 && updated[lastIdx].role === 'assistant'`,
`useAGUI.ts:165-166` and `179-180`). -/
def updateLastIfAssistant {J : Type} (f : AGUIMessage J → AGUIMessage J) :
    List (AGUIMessage J) → List (AGUIMessage J)
  | [] => []
  | [m] => if m.role = .assistant then [f m] else [m]
  | m :: m' :: t => m :: updateLastIfAssistant f (m' :: t)

/-- One dispatch of `processSSELine`'s event switch (`useAGUI.ts:137-312`),
before the surrounding `try/catch`: `.error ()` models an exception
escaping a handler (only `JSON.parse` of a tool-args delta can throw
here). `p` models `JSON.parse` on embedded payloads, `now` the clock,
`curId` the `currentMsgId` argument. -/
def processEventCore {J : Type} (p : String → Option J) (now : ℚ) (curId : String)
    (e : Event J) (s : ClientState J) : Except Unit (ClientState J) :=
  match e with
  | .runStarted =>
    .ok { s with isStreaming := true, startTime := some now,
                 firstTokenTime := none, tokenCount := 0 }
  | .textMessageStart messageId =>
    .ok { s with messages := s.messages ++
      [{ id := jsOrStr messageId curId, role := .assistant, content := "",
         timestamp := now, isComplete := false, component := none }] }
  | .textMessageContent delta =>
    let s1 :=
      if s.firstTokenTime = none then
        { s with firstTokenTime := some now,
                 metrics := { s.metrics with ttft := some (now - s.startTime.getD 0) } }
      else s
    let s2 := { s1 with tokenCount := s1.tokenCount + 1 }
    .ok { s2 with messages :=
      (updateLastIfAssistant
        (fun m => { m with content := m.content ++ jsOrStr delta "" }) s2.messages) }
  | .textMessageEnd =>
    .ok { s with messages := updateLastIfAssistant (sealMessage p) s.messages }
  | .toolCallStart toolCallId toolName args =>
    .ok { s with activeTool :=
      (some { id := toolCallId, name := toolName, args := args,
              result := none, status := .running }) }
  | .toolCallArgs delta =>
    match s.activeTool with
    | none => .ok { s with activeTool := none }
    | some t =>
      match p (jsOrStr delta "\x7b\x7d") with
      | some j => .ok { s with activeTool := some { t with args := some j } }
      | none => .error ()
  | .toolCallEnd _result =>
    .ok { s with activeTool := s.activeTool.map (fun t => { t with status := .complete }),
                 toolClearTimer := some 1000 }
  | .stateUpdate _st => .ok s
  | .uiAction _a _args => .ok s
  | .runFinished =>
    let totalTime := now - s.startTime.getD 0
    let throughput := (s.tokenCount : ℚ) / (totalTime / 1000)
    .ok { s with
      isStreaming := false,
      metrics := { s.metrics with
        totalTokens := s.tokenCount,
        totalTime := some totalTime,
        throughput := some throughput } }
  | .runError message =>
    .ok { s with error := some (jsOrStr message "Unknown error"),
                 isStreaming := false }
  | .done => .ok { s with isStreaming := false }
  | .unknown _t => .ok s

/-- `processSSELine` with its `try/catch` (`useAGUI.ts:130-316`): a handler
exception is caught and the frame skipped, leaving the state unchanged. -/
def processEvent {J : Type} (p : String → Option J) (now : ℚ) (curId : String)
    (e : Event J) (s : ClientState J) : ClientState J :=
  match processEventCore p now curId e s with
  | .ok s' => s'
  | .error _ => s

/-- Result of the synchronous part of `sendMessage` (`useAGUI.ts:318-344`):
the state after the guard/abort/user-message steps, whether the previous
abort controller was aborted, and whether a new transport request was
issued. -/
structure SendAttempt (J : Type) where
  state : ClientState J
  abortedPrevious : Bool
  requested : Bool
deriving DecidableEq

/-- The synchronous head of `sendMessage` (`useAGUI.ts:318-344`): the blank
and `isStreaming` guard (line 319), abort of the previous controller and
installation of a fresh one (lines 321-324), clearing the error, appending
the user message, and issuing the request (`setIsConnected(true)` and the
`fetch`). `msgId` models the generated `msg-${Date.now()}` id, `ctrlId`
identifies the fresh controller. -/
def sendMessageStart {J : Type} (s : ClientState J) (content : String)
    (msgId : String) (ctrlId : Nat) (now : ℚ) : SendAttempt J :=
  if jsIsBlank content || s.isStreaming then
    { state := s, abortedPrevious := false, requested := false }
  else
    { state :=
        { s with abortCtrl := some ctrlId,
                 error := none,
                 messages := s.messages ++
                   [{ id := msgId, role := .user, content := content,
                      timestamp := now, isComplete := true, component := none }],
                 isConnected := true },
      abortedPrevious := s.abortCtrl.isSome,
      requested := true }

/-! ## Frame reassembler (the read loop of `sendMessage`, `useAGUI.ts:371-392`) -/

/-- JS `buffer.split('\n')` on character lists: the list of segments
between occurrences of `c`; never empty. -/
def jsSplit (c : Char) : List Char → List (List Char)
  | [] => [[]]
  | x :: xs =>
    if x = c then [] :: jsSplit c xs
    else
      match jsSplit c xs with
      | [] => [[x]]
      | h :: t => (x :: h) :: t

/-- All segments except the last: `lines` after `lines.pop()`. -/
def dropLastSeg : List (List Char) → List (List Char)
  | [] => []
  | [_] => []
  | x :: y :: t => x :: dropLastSeg (y :: t)

/-- The last segment: `lines.pop() || ''`. -/
def lastSeg : List (List Char) → List Char
  | [] => []
  | [x] => x
  | _ :: y :: t => lastSeg (y :: t)

/-- Prepend a segment onto the first element of a segment list (the shape
in which two splits merge at a chunk boundary). -/
def glueSeg (x : List Char) : List (List Char) → List (List Char)
  | [] => [x]
  | h :: t => (x ++ h) :: t

/-- JS truthiness of `line.trim()` (`useAGUI.ts:384`): the line has a
non-whitespace character. -/
def lineNonblank (l : List Char) : Bool :=
  decide (jsTrimList l ≠ [])

/-- Reassembly state: the lines handed to `processSSELine` so far and the
retained trailing partial segment (`buffer`, `useAGUI.ts:372`). -/
structure ReassemblyState where
  out : List (List Char)
  buffer : List Char
deriving DecidableEq

/-- One iteration of the read loop (`useAGUI.ts:379-388`): append the
chunk to the buffer, split on the newline delimiter, process all complete
non-blank lines, retain the trailing segment. -/
def feedChunk (st : ReassemblyState) (chunk : List Char) : ReassemblyState :=
  let ls := jsSplit '\n' (st.buffer ++ chunk)
  { out := st.out ++ (dropLastSeg ls).filter lineNonblank, buffer := lastSeg ls }

/-- The whole read loop plus the close-time flush of a non-blank remaining
buffer (`useAGUI.ts:375-392`): the sequence of lines handed to
`processSSELine` for a given chunking of the stream. -/
def runStream (chunks : List (List Char)) : List (List Char) :=
  let st := chunks.foldl feedChunk { out := [], buffer := [] }
  st.out ++ if lineNonblank st.buffer then [st.buffer] else []

/-! ## Server-side keyword router (`adapters/mastra/server.ts:271-390`) -/

/-- The route that produces a run's response text. -/
inductive Route where
  | improveRecipe
  | executePlan
  | planning
  | weather
  | timeQuery
  | themeChange
  | resetUI
  | background
  | greeting
  | llm
deriving DecidableEq

/-- `planningKeywords` (`server.ts:309`). -/
def planningKeywords : List String :=
  ["plan ", "plan a ", "create a plan", "steps to", "checklist", "how to", "steps for"]

/-- `weatherKeywords` (`server.ts:325`). -/
def weatherKeywords : List String :=
  ["weather in", "weather like in", "weather for", "temperature in"]

/-- `timeKeywords` (`server.ts:336`). -/
def timeKeywords : List String :=
  ["what time", "current time", "time is it", "time now"]

/-- `themeKeywords` (`server.ts:346`). -/
def themeKeywords : List String :=
  ["light theme", "light mode", "dark theme", "dark mode"]

/-- `resetKeywords` (`server.ts:357`). -/
def resetKeywords : List String :=
  ["reset ui", "reset the ui", "default ui", "restore ui"]

/-- `bgKeywords` (`server.ts:367`). -/
def bgKeywords : List String :=
  ["background to", "background color", "background colour", "change background", "make background"]

/-- `greetings` membership plus the two comma forms (`server.ts:385-386`). -/
def greetingHit (userLower : String) : Bool :=
  ["hello", "hi", "hey", "hi there", "hello there"].contains ⟨jsTrimList userLower.toList⟩
    || jsStartsWith userLower "hello,"
    || jsStartsWith userLower "hi,"

/-- One guarded routing check: `if (!useKeywordResponse && pred) { ...;
useKeywordResponse = true }`. The pair carries (chosen route, flag). -/
def routeStep (st : Route × Bool) (pred : Bool) (r : Route) : Route × Bool :=
  if !st.2 && pred then (r, true) else st

/-- The keyword router (`server.ts:271-390`) as a flag-threaded sequence of
checks in source order; the result is the route that produces the
response, `Route.llm` when no keyword check fired (`server.ts:395-425`).
The `EXECUTE_PLAN` check fires only when `indexOf(':[') !== -1`
(`server.ts:293-294`); a parse failure inside a fired structured command
still produces that command's (error) response, so it stays the same
route. -/
def route (userInput : String) : Route :=
  let userLower := jsToLower userInput
  let st := (Route.llm, false)
  let st := routeStep st (jsStartsWith userInput "IMPROVE_RECIPE:") .improveRecipe
  let st := routeStep st (jsStartsWith userInput "EXECUTE_PLAN:" && strContains userInput ":[") .executePlan
  let st := routeStep st (planningKeywords.any (fun kw => strContains userLower kw)) .planning
  let st := routeStep st (weatherKeywords.any (fun kw => strContains userLower kw)) .weather
  let st := routeStep st (timeKeywords.any (fun kw => strContains userLower kw)) .timeQuery
  let st := routeStep st (themeKeywords.any (fun kw => strContains userLower kw)) .themeChange
  let st := routeStep st (resetKeywords.any (fun kw => strContains userLower kw)) .resetUI
  let st := routeStep st (bgKeywords.any (fun kw => strContains userLower kw)) .background
  let st := routeStep st (greetingHit userLower) .greeting
  st.1

/-- Modelled from the spec (§4.8): "test an ordered list of predicates;
first match wins", falling through to the LLM streamer when nothing
matches. -/
def firstMatch : List ((String → Bool) × Route) → String → Route
  | [], _ => .llm
  | (q, r) :: rest, s => if q s then r else firstMatch rest s

/-- Modelled from the spec (§4.8): the ordered predicate table — the
structured command prefixes first, then the free-text keyword phrases,
then greeting detection. -/
def routeTable : List ((String → Bool) × Route) :=
  [(fun s => jsStartsWith s "IMPROVE_RECIPE:", .improveRecipe),
   (fun s => jsStartsWith s "EXECUTE_PLAN:" && strContains s ":[", .executePlan),
   (fun s => planningKeywords.any (fun kw => strContains (jsToLower s) kw), .planning),
   (fun s => weatherKeywords.any (fun kw => strContains (jsToLower s) kw), .weather),
   (fun s => timeKeywords.any (fun kw => strContains (jsToLower s) kw), .timeQuery),
   (fun s => themeKeywords.any (fun kw => strContains (jsToLower s) kw), .themeChange),
   (fun s => resetKeywords.any (fun kw => strContains (jsToLower s) kw), .resetUI),
   (fun s => bgKeywords.any (fun kw => strContains (jsToLower s) kw), .background),
   (fun s => greetingHit (jsToLower s), .greeting)]

/-- A `JSON.parse` model that always fails, over the unit payload type. -/
def noParse : String → Option Unit := fun _ => none

/-- A `JSON.parse` model recognising exactly the demo payload
`["x:y",1]` (a JSON value that itself contains a colon). -/
def demoParse : String → Option Unit :=
  fun s => if s = "[\"x:y\",1]" then some () else none

/-! ## Concrete states used by witnesses and counterexamples -/

/-- The hook's initial state (`useAGUI.ts:69-84`). -/
def baseState : ClientState Unit :=
  { messages := [], isConnected := true, isStreaming := false, activeTool := none,
    error := none,
    metrics := { ttft := none, totalTokens := 0, totalTime := none, throughput := none },
    startTime := none, firstTokenTime := none, tokenCount := 0,
    toolClearTimer := none, abortCtrl := none }

/-- A session in the middle of a streaming run, holding a live controller. -/
def stStreaming : ClientState Unit :=
  { baseState with isStreaming := true, abortCtrl := some 1 }

/-- An idle session that still holds the previous run's controller. -/
def stIdleWithCtrl : ClientState Unit :=
  { baseState with abortCtrl := some 1 }

/-- An assistant message already sealed by `TEXT_MESSAGE_END`. -/
def mSealed : AGUIMessage Unit :=
  { id := "m1", role := .assistant, content := "a", timestamp := 0,
    isComplete := true, component := none }

/-- A session whose last (and only) message is sealed. -/
def stSealed : ClientState Unit :=
  { baseState with messages := [mSealed] }

/-- A session with a tracked running tool call. -/
def stActiveTool : ClientState Unit :=
  { baseState with activeTool :=
      (some { id := "t1", name := "getWeather", args := none,
              result := none, status := .running }) }

/-- A mid-run session that has already seen its first content delta. -/
def stTokenSeen : ClientState Unit :=
  { baseState with
    isStreaming := true, startTime := some 0,
    firstTokenTime := some 2,
    metrics := { ttft := some 2, totalTokens := 1, totalTime := none, throughput := none },
    tokenCount := 1 }

/-- A mid-run session that has not yet seen a content delta. -/
def stNoToken : ClientState Unit :=
  { baseState with isStreaming := true, startTime := some 1 }

/-- An open assistant message holding a component sentinel whose JSON
payload contains a colon. -/
def mComponent : AGUIMessage Unit :=
  { id := "m1", role := .assistant, content := "COMPONENT:Weather:[\"x:y\",1]",
    timestamp := 0, isComplete := false, component := none }

/-- A session about to seal `mComponent`. -/
def stComponent : ClientState Unit :=
  { baseState with messages := [mComponent] }

/-- An open assistant message with a component sentinel and a malformed
JSON payload. -/
def mBadJson : AGUIMessage Unit :=
  { id := "m1", role := .assistant, content := "COMPONENT:Foo:\x7bnot json",
    timestamp := 0, isComplete := false, component := none }

/-- A session about to seal `mBadJson`. -/
def stBadJson : ClientState Unit :=
  { baseState with messages := [mBadJson] }

/-! ## Helper lemmas -/

/-- `updateLastIfAssistant` in closed form: keep everything but the last
entry, and rewrite the last entry when its role is assistant. -/
theorem updateLastIfAssistant_eq {J : Type} (f : AGUIMessage J → AGUIMessage J) :
    ∀ l : List (AGUIMessage J),
      updateLastIfAssistant f l =
        l.dropLast ++ (l.getLast?.map fun m => if m.role = .assistant then f m else m).toList
  | [] => rfl
  | [m] => by
    by_cases h : m.role = .assistant <;> simp [updateLastIfAssistant, h]
  | m :: m' :: t => by
    have ih := updateLastIfAssistant_eq f (m' :: t)
    simp only [updateLastIfAssistant, ih, List.dropLast_cons₂, List.getLast?_cons_cons,
      List.cons_append]

/-- The message-list effect of a content-delta frame. -/
theorem processEvent_content_messages {J : Type} (p : String → Option J) (now : ℚ)
    (curId : String) (d : Option String) (s : ClientState J) :
    (processEvent p now curId (.textMessageContent d) s).messages =
      updateLastIfAssistant
        (fun m => { m with content := m.content ++ jsOrStr d "" }) s.messages := by
  by_cases h : s.firstTokenTime = none <;>
    simp [processEvent, processEventCore, h]

/-- The message-list effect of an end frame. -/
theorem processEvent_end_messages {J : Type} (p : String → Option J) (now : ℚ)
    (curId : String) (s : ClientState J) :
    (processEvent p now curId .textMessageEnd s).messages =
      updateLastIfAssistant (sealMessage p) s.messages := by
  simp [processEvent, processEventCore]

/-! ## Claim C9 -/

/-- Claim C9: a `RUN_ERROR` event stores the error message (defaulting to
"Unknown error") and clears the streaming flag, and changes nothing else:
the conversation list, the active tool, the metrics and all refs are
retained exactly. -/
theorem runError_frame_effect {J : Type} (p : String → Option J) (now : ℚ)
    (curId : String) (message : Option String) (s : ClientState J) :
    processEvent p now curId (.runError message) s =
      { s with error := some (jsOrStr message "Unknown error"), isStreaming := false } := rfl

/-! ## Claim C5 -/

/-- Claim C5 (code bug): on `TOOL_CALL_END` the tracked call's status
becomes `complete` and the 1-second auto-clear is scheduled, but the
delivered result is NOT attached — the result-attaching statements in the
source sit after the `break` (`useAGUI.ts:243-248`) and are unreachable,
so `result` stays `none` even though the event carried `"sunny"`. -/
theorem toolCallEnd_drops_result :
    (processEvent noParse 0 "c" (.toolCallEnd (some "sunny")) stActiveTool).activeTool
        = some { id := "t1", name := "getWeather", args := none,
                 result := none, status := .complete }
      ∧ (processEvent noParse 0 "c" (.toolCallEnd (some "sunny")) stActiveTool).toolClearTimer
        = some 1000 := by
  constructor <;> rfl

/-! ## Claim C10 -/

/-- Claim C10: a `TOOL_CALL_ARGS` frame arriving while no tool call is
tracked leaves the slot `null` and the whole state unchanged, and the
handler returns normally (no exception reaches the dispatcher), whatever
the delta — the guard `if (!prev) return null` runs before any parse. -/
theorem toolCallArgs_no_active_slot {J : Type} (p : String → Option J) (now : ℚ)
    (curId : String) (delta : Option String) (s : ClientState J)
    (h : s.activeTool = none) :
    processEventCore p now curId (.toolCallArgs delta) s = .ok s
      ∧ processEvent p now curId (.toolCallArgs delta) s = s := by
  cases s with
  | mk messages isConnected isStreaming activeTool error metrics startTime
      firstTokenTime tokenCount toolClearTimer abortCtrl =>
    simp only at h
    subst h
    exact ⟨rfl, rfl⟩

/-- Witness for C10 at a concrete state with an empty slot and a
malformed delta. -/
theorem toolCallArgs_no_active_slot_witness :
    processEventCore noParse 0 "c" (.toolCallArgs (some "not json")) baseState
        = .ok baseState
      ∧ processEvent noParse 0 "c" (.toolCallArgs (some "not json")) baseState
        = baseState :=
  toolCallArgs_no_active_slot noParse 0 "c" (some "not json") baseState (by decide)

/-! ## Claim C1 -/

/-- Claim C1 counterexample: with a run streaming (`stStreaming`), a new
non-blank send neither aborts the previous transport read nor issues a new
request — it is dropped by the guard `if (!content.trim() || isStreaming)
return` (`useAGUI.ts:319`), contradicting the claimed supersede
semantics. -/
theorem sendMessage_while_streaming_counterexample :
    stStreaming.isStreaming = true
      ∧ jsIsBlank "hi" = false
      ∧ (sendMessageStart stStreaming "hi" "m2" 2 5).abortedPrevious = false
      ∧ (sendMessageStart stStreaming "hi" "m2" 2 5).requested = false
      ∧ (sendMessageStart stStreaming "hi" "m2" 2 5).state = stStreaming := by
  refine ⟨rfl, by decide, ?_, ?_, ?_⟩ <;> decide

/-- Claim C1 (amended): a non-blank send issued while a previous run is
streaming is ignored (dropped, not queued and not superseding); a
non-blank send issued while not streaming does go out, and it aborts the
previously installed transport controller exactly when one is present
(e.g. a previous run whose read is still open after an error). -/
theorem sendMessage_guard_and_supersede {J : Type} (s : ClientState J)
    (content msgId : String) (ctrlId : Nat) (now : ℚ) :
    (s.isStreaming = true →
      sendMessageStart s content msgId ctrlId now =
        { state := s, abortedPrevious := false, requested := false })
      ∧ (s.isStreaming = false → jsIsBlank content = false →
          (sendMessageStart s content msgId ctrlId now).requested = true
            ∧ (sendMessageStart s content msgId ctrlId now).abortedPrevious
              = s.abortCtrl.isSome) := by
  constructor
  · intro h
    simp [sendMessageStart, h]
  · intro h hb
    simp [sendMessageStart, h, hb]

/-- Witness for the amended C1: the streaming state drops the send; the
idle state with a leftover controller aborts it and sends. -/
theorem sendMessage_guard_and_supersede_witness :
    sendMessageStart stStreaming "hi" "m9" 9 1 =
        { state := stStreaming, abortedPrevious := false, requested := false }
      ∧ (sendMessageStart stIdleWithCtrl "hi" "m9" 9 1).requested = true
      ∧ (sendMessageStart stIdleWithCtrl "hi" "m9" 9 1).abortedPrevious
        = stIdleWithCtrl.abortCtrl.isSome :=
  ⟨(sendMessage_guard_and_supersede stStreaming "hi" "m9" 9 1).1 (by decide),
   ((sendMessage_guard_and_supersede stIdleWithCtrl "hi" "m9" 9 1).2 (by decide) (by decide)).1,
   ((sendMessage_guard_and_supersede stIdleWithCtrl "hi" "m9" 9 1).2 (by decide) (by decide)).2⟩

/-! ## Claim C2 -/

/-- Claim C2 counterexample: `mSealed` is already sealed
(`isComplete = true`) and is the last list entry; a later
`TEXT_MESSAGE_CONTENT` still appends to it — the content handler checks
only `role === 'assistant'`, never `isComplete` (`useAGUI.ts:166`). -/
theorem sealed_message_append_counterexample :
    mSealed.isComplete = true
      ∧ (processEvent noParse 1 "c" (.textMessageContent (some "b")) stSealed).messages
        = [{ mSealed with content := "ab" }] := by
  constructor <;> decide

/-- Claim C2 (amended): a content-delta touches only the last entry of the
conversation list — every earlier message, sealed or not, is retained
exactly — and on the last entry, when its role is assistant, the delta is
appended to its content (monotonic growth), whether or not it has been
sealed; sealing protects a message from later deltas only once a newer
message has been opened after it. -/
theorem content_delta_targets_last_message {J : Type} (p : String → Option J)
    (now : ℚ) (curId : String) (d : Option String) (s : ClientState J) :
    (processEvent p now curId (.textMessageContent d) s).messages.dropLast
        = s.messages.dropLast
      ∧ (processEvent p now curId (.textMessageContent d) s).messages.getLast?
        = s.messages.getLast?.map
            (fun m => if m.role = .assistant
              then { m with content := m.content ++ jsOrStr d "" } else m) := by
  rw [processEvent_content_messages, updateLastIfAssistant_eq]
  rcases List.eq_nil_or_concat s.messages with h | ⟨l', a, h⟩ <;>
    rw [h] <;> simp

/-! ## String lemmas for the component sub-protocol -/

/-- `toList` distributes over string append. -/
theorem toList_append (a b : String) : (a ++ b).toList = a.toList ++ b.toList :=
  String.data_append a b

/-- A list is a `isPrefixOf` of itself followed by anything. -/
theorem isPrefixOf_append_self : ∀ a b : List Char, a.isPrefixOf (a ++ b) = true
  | [], _ => by simp [List.isPrefixOf]
  | x :: xs, b => by
    simp [List.isPrefixOf, isPrefixOf_append_self xs b]

/-- `splitFirstColon` splits at the first colon. -/
theorem splitFirstColon_append : ∀ (l r : List Char), ':' ∉ l →
    splitFirstColon (l ++ ':' :: r) = some (l, r)
  | [], r, _ => by simp [splitFirstColon]
  | x :: xs, r, h => by
    have hx : ¬x = ':' := by
      intro he
      exact h (by simp [he])
    have ih := splitFirstColon_append xs r (fun hm => h (List.mem_cons_of_mem x hm))
    simp [splitFirstColon, hx, ih]

/-- The character list of a full component sentinel string. -/
theorem component_toList (ty js : String) :
    ("COMPONENT:" ++ ty ++ ":" ++ js).toList =
      "COMPONENT:".toList ++ (ty.toList ++ ':' :: js.toList) := by
  have hcolon : (":" : String).toList = [':'] := rfl
  simp [toList_append, hcolon, List.append_assoc]

/-- A component sentinel string starts with the marker. -/
theorem jsStartsWith_component (ty js : String) :
    jsStartsWith ("COMPONENT:" ++ ty ++ ":" ++ js) componentMarker = true := by
  unfold jsStartsWith componentMarker
  rw [component_toList]
  exact isPrefixOf_append_self _ _

/-- `componentSplit` of a sentinel whose type part is colon-free yields the
type and the full JSON remainder, colons in the payload included. -/
theorem componentSplit_literal (ty js : String) (hty : ':' ∉ ty.toList) :
    componentSplit ("COMPONENT:" ++ ty ++ ":" ++ js) = (ty, js) := by
  unfold componentSplit
  rw [component_toList]
  have hlen : componentMarker.toList.length = "COMPONENT:".toList.length := rfl
  rw [hlen, List.drop_left, splitFirstColon_append ty.toList js.toList hty]
  rfl

/-- `sealMessage` on a well-formed sentinel with a parsable payload. -/
theorem sealMessage_component {J : Type} (p : String → Option J) (m : AGUIMessage J)
    (ty js : String) (d : J)
    (hc : m.content = "COMPONENT:" ++ ty ++ ":" ++ js)
    (hty : ':' ∉ ty.toList) (hp : p js = some d) :
    sealMessage p m =
      { m with content := "", isComplete := true,
               component := some { type := ty, data := d } } := by
  simp [sealMessage, hc, jsStartsWith_component, componentSplit_literal ty js hty, hp]

/-- `sealMessage` on a sentinel whose payload fails to parse: plain seal. -/
theorem sealMessage_plain {J : Type} (p : String → Option J) (m : AGUIMessage J)
    (hmark : jsStartsWith m.content componentMarker = true)
    (hp : p (componentSplit m.content).2 = none) :
    sealMessage p m = { m with isComplete := true } := by
  simp [sealMessage, hmark, hp]

/-! ## Claim C3 -/

/-- Claim C3: sealing an assistant message whose accumulated content is
the literal `COMPONENT:<Type>:<JSON>` — `<Type>` the colon-free substring
up to the first colon after the marker, the remainder a parsable JSON
payload (which may itself contain colons) — sets `component.type` to
`<Type>`, `component.data` to the parsed value, clears the displayed
content and sets `isComplete`; all earlier messages are untouched. -/
theorem component_extraction_on_seal {J : Type} (p : String → Option J) (now : ℚ)
    (curId : String) (s : ClientState J) (pre : List (AGUIMessage J))
    (m : AGUIMessage J) (ty js : String) (d : J)
    (hmsgs : s.messages = pre ++ [m])
    (hrole : m.role = .assistant)
    (hc : m.content = "COMPONENT:" ++ ty ++ ":" ++ js)
    (hty : ':' ∉ ty.toList)
    (hp : p js = some d) :
    (processEvent p now curId .textMessageEnd s).messages =
      pre ++ [{ m with
                content := "", isComplete := true,
                component := some { type := ty, data := d } }] := by
  rw [processEvent_end_messages, hmsgs, updateLastIfAssistant_eq]
  simp [hrole, sealMessage_component p m ty js d hc hty hp]

/-- Witness for C3 on the spec's colon-in-payload example shape. -/
theorem component_extraction_on_seal_witness :
    (processEvent demoParse 0 "c" .textMessageEnd stComponent).messages =
      [] ++ [{ mComponent with
               content := "", isComplete := true,
               component := some { type := "Weather", data := () } }] :=
  component_extraction_on_seal demoParse 0 "c" stComponent [] mComponent
    "Weather" ("[\"x:y\",1]") () (by decide) (by decide) (by decide)
    (by decide) (by decide)

/-! ## Claim C8 -/

/-- Claim C8: sealing an assistant message whose content starts with the
`COMPONENT:` marker but whose payload fails to parse leaves the message as
plain visible text equal to the original string — only `isComplete` is
set, no component is attached — and the handler returns normally (the
parse failure is caught inside the `TEXT_MESSAGE_END` branch, so no
exception escapes). -/
theorem component_parse_failure_seals_plain {J : Type} (p : String → Option J)
    (now : ℚ) (curId : String) (s : ClientState J) (pre : List (AGUIMessage J))
    (m : AGUIMessage J)
    (hmsgs : s.messages = pre ++ [m])
    (hrole : m.role = .assistant)
    (hmark : jsStartsWith m.content componentMarker = true)
    (hp : p (componentSplit m.content).2 = none) :
    processEventCore p now curId .textMessageEnd s =
      .ok { s with messages := pre ++ [{ m with isComplete := true }] } := by
  simp only [processEventCore, Except.ok.injEq]
  rw [hmsgs, updateLastIfAssistant_eq]
  simp [hrole, sealMessage_plain p m hmark hp]

/-- Witness for C8 on the spec's malformed payload example. -/
theorem component_parse_failure_seals_plain_witness :
    processEventCore noParse 0 "c" .textMessageEnd stBadJson =
      .ok { stBadJson with messages := [] ++ [{ mBadJson with isComplete := true }] } :=
  component_parse_failure_seals_plain noParse 0 "c" stBadJson [] mBadJson
    (by decide) (by decide) (by decide) (by decide)

/-! ## Claim C7 -/

/-- Claim C7: `ttft` is set at most once per run — a content delta
arriving when the first-token guard is already set leaves `ttft` (and the
guard) unchanged; the first content delta of a run sets
`ttft = now - startTime` and arms the guard; `RUN_STARTED` resets the
guard so the next run records its own `ttft`. -/
theorem ttft_set_once {J : Type} (p : String → Option J) (curId : String)
    (s : ClientState J) (d : Option String) (now : ℚ) :
    (s.firstTokenTime.isSome = true →
      (processEvent p now curId (.textMessageContent d) s).metrics.ttft = s.metrics.ttft
        ∧ (processEvent p now curId (.textMessageContent d) s).firstTokenTime
          = s.firstTokenTime)
      ∧ (s.firstTokenTime = none →
        (processEvent p now curId (.textMessageContent d) s).metrics.ttft
            = some (now - s.startTime.getD 0)
          ∧ (processEvent p now curId (.textMessageContent d) s).firstTokenTime
            = some now)
      ∧ (processEvent p now curId .runStarted s).firstTokenTime = none := by
  refine ⟨fun h => ?_, fun h => ?_, ?_⟩
  · cases hft : s.firstTokenTime with
    | none => rw [hft] at h; simp at h
    | some t => simp [processEvent, processEventCore, hft]
  · simp [processEvent, processEventCore, h]
  · simp [processEvent, processEventCore]

/-- Witness for C7: a second delta does not move `ttft`; a first delta
sets it from the run start. -/
theorem ttft_set_once_witness :
    (processEvent noParse 5 "c" (.textMessageContent (some "x")) stTokenSeen).metrics.ttft
        = stTokenSeen.metrics.ttft
      ∧ (processEvent noParse 7 "c" (.textMessageContent (some "y")) stNoToken).metrics.ttft
        = some (7 - stNoToken.startTime.getD 0) :=
  ⟨((ttft_set_once noParse "c" stTokenSeen (some "x") 5).1 (by decide)).1,
   ((ttft_set_once noParse "c" stNoToken (some "y") 7).2.1 (by decide)).1⟩

/-! ## Claim C4 -/

/-- Claim C4: the keyword router tests an ordered list of predicates and
the first match wins — the structured command prefixes
(`IMPROVE_RECIPE:`, `EXECUTE_PLAN:` with a `:[` payload) are checked
before the free-text keyword phrases (planning, weather, time, UI-action
phrases), which are checked before greeting detection, before falling
through to the LLM streamer; being a function into `Route`, exactly one
route produces the run's response. -/
theorem route_eq_firstMatch (s : String) : route s = firstMatch routeTable s := by
  by_cases h1 : jsStartsWith s "IMPROVE_RECIPE:" = true
  · simp [route, routeTable, firstMatch, routeStep, h1]
  ·
    by_cases h2 : (jsStartsWith s "EXECUTE_PLAN:" && strContains s ":[") = true
    · simp [route, routeTable, firstMatch, routeStep, h1, h2]
    ·
      by_cases h3 : planningKeywords.any (fun kw => strContains (jsToLower s) kw) = true
      · simp [route, routeTable, firstMatch, routeStep, h1, h2, h3]
      ·
        by_cases h4 : weatherKeywords.any (fun kw => strContains (jsToLower s) kw) = true
        · simp [route, routeTable, firstMatch, routeStep, h1, h2, h3, h4]
        ·
          by_cases h5 : timeKeywords.any (fun kw => strContains (jsToLower s) kw) = true
          · simp [route, routeTable, firstMatch, routeStep, h1, h2, h3, h4, h5]
          ·
            by_cases h6 : themeKeywords.any (fun kw => strContains (jsToLower s) kw) = true
            · simp [route, routeTable, firstMatch, routeStep, h1, h2, h3, h4, h5, h6]
            ·
              by_cases h7 : resetKeywords.any (fun kw => strContains (jsToLower s) kw) = true
              · simp [route, routeTable, firstMatch, routeStep, h1, h2, h3, h4, h5, h6, h7]
              ·
                by_cases h8 : bgKeywords.any (fun kw => strContains (jsToLower s) kw) = true
                · simp [route, routeTable, firstMatch, routeStep, h1, h2, h3, h4, h5, h6, h7, h8]
                ·
                  by_cases h9 : greetingHit (jsToLower s) = true
                  · simp [route, routeTable, firstMatch, routeStep, h1, h2, h3, h4, h5, h6, h7, h8, h9]
                  · simp [route, routeTable, firstMatch, routeStep, h1, h2, h3, h4, h5, h6, h7, h8, h9]

/-! ## Frame reassembler lemmas -/

/-- `jsSplit` never returns the empty list. -/
theorem jsSplit_ne_nil (c : Char) : ∀ l : List Char, jsSplit c l ≠ []
  | [] => by simp [jsSplit]
  | x :: xs => by
    simp only [jsSplit]
    split
    · simp
    · split <;> simp

/-- Destructure a `jsSplit` result as a cons. -/
theorem jsSplit_dest (c : Char) (l : List Char) : ∃ h t, jsSplit c l = h :: t := by
  cases hS : jsSplit c l with
  | nil => exact absurd hS (jsSplit_ne_nil c l)
  | cons h t => exact ⟨h, t, rfl⟩

/-- `jsSplit` at a delimiter character opens a new empty segment. -/
theorem jsSplit_cons_eq (c : Char) (xs : List Char) :
    jsSplit c (c :: xs) = [] :: jsSplit c xs := by
  simp [jsSplit]

/-- `jsSplit` at a non-delimiter character extends the first segment. -/
theorem jsSplit_cons_ne (c x : Char) (xs : List Char) (hx : ¬x = c) :
    jsSplit c (x :: xs) = glueSeg [x] (jsSplit c xs) := by
  obtain ⟨h, t, hS⟩ := jsSplit_dest c xs
  simp [jsSplit, hx, hS, glueSeg]

/-- Two glues collapse into one. -/
theorem glueSeg_glueSeg (x y : List Char) (L : List (List Char)) :
    glueSeg x (glueSeg y L) = glueSeg (x ++ y) L := by
  cases L <;> simp [glueSeg, List.append_assoc]

/-- Gluing never produces the empty list. -/
theorem glueSeg_ne_nil (x : List Char) (L : List (List Char)) : glueSeg x L ≠ [] := by
  cases L <;> simp [glueSeg]

/-- How `jsSplit` distributes over an append: the complete segments of the
left part, then the right part's split with its first segment glued onto
the left part's trailing segment. -/
theorem jsSplit_append (c : Char) : ∀ a b : List Char,
    jsSplit c (a ++ b) =
      dropLastSeg (jsSplit c a) ++ glueSeg (lastSeg (jsSplit c a)) (jsSplit c b)
  | [], b => by
    obtain ⟨th, tt, hT⟩ := jsSplit_dest c b
    simp [jsSplit, hT, dropLastSeg, lastSeg, glueSeg]
  | x :: xs, b => by
    obtain ⟨sh, st, hS⟩ := jsSplit_dest c xs
    have ih := jsSplit_append c xs b
    by_cases hx : x = c
    · subst hx
      rw [List.cons_append, jsSplit_cons_eq, jsSplit_cons_eq, ih, hS]
      simp [dropLastSeg, lastSeg]
    · rw [List.cons_append, jsSplit_cons_ne c x _ hx, jsSplit_cons_ne c x _ hx, ih, hS]
      obtain ⟨th, tt, hT⟩ := jsSplit_dest c b
      cases st with
      | nil => simp [dropLastSeg, lastSeg, glueSeg, hT, List.append_assoc]
      | cons s1 ss => simp [dropLastSeg, lastSeg, glueSeg]

/-- The trailing segment of a split contains no delimiter. -/
theorem lastSeg_jsSplit_not_mem (c : Char) : ∀ l : List Char, c ∉ lastSeg (jsSplit c l)
  | [] => by simp [jsSplit, lastSeg]
  | x :: xs => by
    obtain ⟨sh, st, hS⟩ := jsSplit_dest c xs
    have ih := lastSeg_jsSplit_not_mem c xs
    rw [hS] at ih
    by_cases hx : x = c
    · subst hx
      rw [jsSplit_cons_eq, hS]
      simpa [lastSeg] using ih
    · rw [jsSplit_cons_ne c x xs hx, hS]
      cases st with
      | nil =>
        simp only [glueSeg, lastSeg, List.singleton_append] at ih ⊢
        intro hmem
        rcases List.mem_cons.mp hmem with he | hm
        · exact hx he.symm
        · exact ih hm
      | cons s1 ss =>
        simpa [glueSeg, lastSeg] using ih

/-- Splitting a delimiter-free list yields that single segment. -/
theorem jsSplit_of_not_mem (c : Char) : ∀ l : List Char, c ∉ l → jsSplit c l = [l]
  | [], _ => rfl
  | x :: xs, h => by
    have hx : ¬x = c := fun he => h (by simp [he])
    have ih := jsSplit_of_not_mem c xs (fun hm => h (List.mem_cons_of_mem x hm))
    rw [jsSplit_cons_ne c x xs hx, ih]
    simp [glueSeg]

/-- `dropLastSeg` of an append with a nonempty right part. -/
theorem dropLastSeg_append : ∀ (A B : List (List Char)), B ≠ [] →
    dropLastSeg (A ++ B) = A ++ dropLastSeg B
  | [], _, _ => by simp
  | a :: as, B, h => by
    have ih := dropLastSeg_append as B h
    cases hAB : as ++ B with
    | nil => exact absurd (List.append_eq_nil.mp hAB).2 h
    | cons y t =>
      rw [List.cons_append, hAB]
      simp only [dropLastSeg]
      rw [← hAB, ih]
      simp

/-- `lastSeg` of an append with a nonempty right part. -/
theorem lastSeg_append : ∀ (A B : List (List Char)), B ≠ [] →
    lastSeg (A ++ B) = lastSeg B
  | [], _, _ => by simp
  | a :: as, B, h => by
    have ih := lastSeg_append as B h
    cases hAB : as ++ B with
    | nil => exact absurd (List.append_eq_nil.mp hAB).2 h
    | cons y t =>
      rw [List.cons_append, hAB]
      simp only [lastSeg]
      rw [← hAB, ih]

/-- A nonempty segment list is its complete segments plus its trailing one. -/
theorem seg_decomp : ∀ L : List (List Char), L ≠ [] → L = dropLastSeg L ++ [lastSeg L]
  | [], h => absurd rfl h
  | [x], _ => by simp [dropLastSeg, lastSeg]
  | x :: y :: t, _ => by
    have ih := seg_decomp (y :: t) (by simp)
    simp only [dropLastSeg, lastSeg, List.cons_append]
    conv_lhs => rw [ih]

/-- Closed form of the read loop: after feeding any chunk list, the
processed lines are the non-blank complete segments of the concatenated
text and the buffer is its trailing segment. -/
theorem foldl_feedChunk : ∀ chunks : List (List Char),
    chunks.foldl feedChunk { out := [], buffer := [] } =
      { out := (dropLastSeg (jsSplit '\n' chunks.flatten)).filter lineNonblank,
        buffer := lastSeg (jsSplit '\n' chunks.flatten) } := by
  intro chunks
  induction chunks using List.reverseRecOn with
  | nil => rfl
  | append_singleton cs c ih =>
    rw [List.foldl_append, ih]
    have hlast : '\n' ∉ lastSeg (jsSplit '\n' cs.flatten) :=
      lastSeg_jsSplit_not_mem '\n' cs.flatten
    have h1 : jsSplit '\n' (lastSeg (jsSplit '\n' cs.flatten) ++ c) =
        glueSeg (lastSeg (jsSplit '\n' cs.flatten)) (jsSplit '\n' c) := by
      rw [jsSplit_append, jsSplit_of_not_mem '\n' _ hlast]
      simp [dropLastSeg, lastSeg]
    have h2 : jsSplit '\n' (cs.flatten ++ c) =
        dropLastSeg (jsSplit '\n' cs.flatten) ++
          jsSplit '\n' (lastSeg (jsSplit '\n' cs.flatten) ++ c) := by
      rw [jsSplit_append, h1]
    have hls : jsSplit '\n' (lastSeg (jsSplit '\n' cs.flatten) ++ c) ≠ [] :=
      jsSplit_ne_nil _ _
    have hflat : (cs ++ [c]).flatten = cs.flatten ++ c := by simp
    simp only [List.foldl_cons, List.foldl_nil, feedChunk, hflat, h2,
      dropLastSeg_append _ _ hls, List.filter_append, lastSeg_append _ _ hls,
      List.append_assoc]

/-- Normal form of the whole reassembly run: the non-blank lines of the
newline-split of the concatenated stream text. -/
theorem runStream_normal (chunks : List (List Char)) :
    runStream chunks = (jsSplit '\n' chunks.flatten).filter lineNonblank := by
  unfold runStream
  rw [foldl_feedChunk]
  have hne : jsSplit '\n' chunks.flatten ≠ [] := jsSplit_ne_nil _ _
  conv_rhs => rw [seg_decomp _ hne]
  rw [List.filter_append]
  simp [List.filter_cons]

/-! ## Claim C6 -/

/-- Claim C6: split invariance of the frame reassembler — any two
chunkings of the same stream text yield the identical sequence of decoded
lines, complete lines in order with the trailing partial segment carried
across reads and a final non-blank buffer flushed at close. -/
theorem stream_split_invariance (cs ds : List (List Char))
    (h : cs.flatten = ds.flatten) : runStream cs = runStream ds := by
  rw [runStream_normal, runStream_normal, h]

/-- Witness for C6: one chunk versus a three-way split of `"a\nb"`. -/
theorem stream_split_invariance_witness :
    ([['a', '\n', 'b']] : List (List Char)).flatten = [['a'], ['\n'], ['b']].flatten
      ∧ runStream [['a', '\n', 'b']] = runStream [['a'], ['\n'], ['b']] :=
  ⟨by decide, stream_split_invariance _ _ (by decide)⟩

end AGUI
